import Mathlib

/-!
Verification of the authentication core of the onev backend.

The Python sources are shallowly embedded:
* `app/auth/jwt.py` — local JWT issue/verify (`create_access_token`,
  `create_refresh_token`, `verify_token`);
* `app/utils/passwords.py` — bcrypt-backed `hash_password` / `verify_password`;
* `app/auth/service.py` — `AuthService` refresh-token ledger operations,
  `change_password`, and the Azure federated claim extraction;
* `app/auth/router.py` — the `refresh` and `logout` endpoints;
* `app/config.py` — the active `Settings` class.

Dynamic JSON claim dictionaries are embedded as association lists over a small
value universe.  A signed JWT string is represented by the structured value it
carries (payload, signing key, algorithm), strings that do not parse as JWTs
by a `malformed` constructor.  SHA-256 and the bcrypt digest are replaced by
computable injective stand-ins, which is the standard collision-free
idealization of cryptographic primitives.
-/

/-- JSON-ish claim values occurring in the token payloads of the source. -/
inductive JVal where
  | str (s : String)
  | num (n : Int)
  | bool (b : Bool)
  | null
  deriving DecidableEq, Repr

/-- A claims payload: a Python dict, embedded as an association list where
lookup takes the first matching key (so consing is dict override). -/
def JDict := List (String × JVal)

instance : DecidableEq JDict := inferInstanceAs (DecidableEq (List (String × JVal)))

/-- Python `payload.get(k)`: first value bound to `k`, or `None`. -/
def JDict.get (d : JDict) (k : String) : Option JVal :=
  (List.find? (fun kv => kv.1 == k) d).map Prod.snd

/-- A JWT string: either a well-formed compact token signed with a key under an
algorithm, or a string that does not parse as a JWT at all. -/
inductive Jwt where
  | signed (payload : JDict) (key : String) (alg : String)
  | malformed (raw : String)
  deriving DecidableEq

/-- The active `Settings` class of `app/config.py` (lines 74-137), restricted
to the fields the auth core reads.  Note that the class defines
`access_token_expire_days` and has no `access_token_expire_minutes` field. -/
structure Settings where
  jwt_secret_key : String
  jwt_algorithm : String
  access_token_expire_days : Int
  refresh_token_expire_days : Int

/-- Pydantic attribute access on a `Settings` instance, by attribute name:
`some` for the integer fields the class defines, `none` (an `AttributeError`)
for any other name.  This models that `settings.access_token_expire_minutes`
raises on the active `Settings` class. -/
def Settings.intAttr (s : Settings) (name : String) : Option Int :=
  if name = "access_token_expire_days" then some s.access_token_expire_days
  else if name = "refresh_token_expire_days" then some s.refresh_token_expire_days
  else none

/-- `timedelta(days=d)` measured in seconds. -/
def daysToSecs (d : Int) : Int := d * 86400

/-- `create_access_token` (`app/auth/jwt.py` lines 14-32): copy the claims,
stamp `exp = now + delta` (default `access_token_expire_days`) and
`type = "access"`, sign with the configured secret and algorithm. -/
def create_access_token (data : JDict) (expires_delta : Option Int)
    (s : Settings) (now : Int) : Jwt :=
  let expire : Int := now + expires_delta.getD (daysToSecs s.access_token_expire_days)
  Jwt.signed (("type", JVal.str "access") :: ("exp", JVal.num expire) :: data)
    s.jwt_secret_key s.jwt_algorithm

/-- `create_refresh_token` (`app/auth/jwt.py` lines 35-52): same, with
`type = "refresh"` and default TTL `refresh_token_expire_days`. -/
def create_refresh_token (data : JDict) (expires_delta : Option Int)
    (s : Settings) (now : Int) : Jwt :=
  let expire : Int := now + expires_delta.getD (daysToSecs s.refresh_token_expire_days)
  Jwt.signed (("type", JVal.str "refresh") :: ("exp", JVal.num expire) :: data)
    s.jwt_secret_key s.jwt_algorithm

/-- `jose.jwt.decode(token, key, algorithms=[alg])` minus expiry handling:
returns the payload when the token is well formed and signed with `key`
under `alg`, and fails (raises `JWTError`, i.e. `none`) otherwise. -/
def jwtDecode (t : Jwt) (key : String) (alg : String) : Option JDict :=
  match t with
  | Jwt.signed p k a => if k == key && a == alg then some p else none
  | Jwt.malformed _ => none

/-- `verify_token` (`app/auth/jwt.py` lines 55-96): decode, require the
`type` claim to equal `expected_type`, require a numeric `exp` claim that
is not in the past, and catch every failure into `None`. -/
def verify_token (t : Jwt) (expected_type : String) (s : Settings) (now : Int) :
    Option JDict :=
  match jwtDecode t s.jwt_secret_key s.jwt_algorithm with
  | none => none
  | some payload =>
    if payload.get "type" ≠ some (JVal.str expected_type) then none
    else
      match payload.get "exp" with
      | some (JVal.num e) => if now > e then none else some payload
      | _ => none

/-- Claim C2: a token issued with kind "refresh" fails verification when the
expected kind is "access", and vice versa, even though it is signed with the
configured secret and algorithm. -/
theorem claim_C2_kind_cross_use_rejected (data : JDict) (d1 d2 : Option Int)
    (s : Settings) (n1 n2 now1 now2 : Int) :
    verify_token (create_refresh_token data d1 s n1) "access" s now1 = none ∧
    verify_token (create_access_token data d2 s n2) "refresh" s now2 = none := by
  constructor <;>
    simp [verify_token, create_refresh_token, create_access_token, jwtDecode,
      JDict.get, List.find?]

/-- Claim C6: `verify_token` is a total function (it never raises: every
failure is the single invalid result `none`), and it returns a payload exactly
when the token decodes under the configured secret and algorithm, its `type`
claim equals the expected kind, and it carries a numeric `exp` claim that is
not in the past; the returned claims are the decoded payload itself. -/
theorem claim_C6_verify_token_total_uniform (t : Jwt) (k : String)
    (s : Settings) (now : Int) (p : JDict) :
    verify_token t k s now = some p ↔
      (jwtDecode t s.jwt_secret_key s.jwt_algorithm = some p ∧
        p.get "type" = some (JVal.str k) ∧
        ∃ e : Int, p.get "exp" = some (JVal.num e) ∧ ¬ now > e) := by
  unfold verify_token
  cases h : jwtDecode t s.jwt_secret_key s.jwt_algorithm with
  | none => simp
  | some payload =>
    show (if payload.get "type" ≠ some (JVal.str k) then none
      else
        match payload.get "exp" with
        | some (JVal.num e) => if now > e then none else some payload
        | _ => none) = some p ↔ _
    by_cases hty : payload.get "type" = some (JVal.str k)
    · rw [if_neg (not_not_intro hty)]
      cases hexp : payload.get "exp" with
      | none =>
        constructor
        · intro hc; exact Option.noConfusion hc
        · rintro ⟨hp, _, e, he, _⟩
          injection hp with hpp; subst hpp
          rw [hexp] at he; exact Option.noConfusion he
      | some v =>
        cases v with
        | num e =>
          show (if now > e then none else some payload) = some p ↔ _
          by_cases hlt : now > e
          · rw [if_pos hlt]
            constructor
            · intro hc; exact Option.noConfusion hc
            · rintro ⟨hp, _, e', he', hnl⟩
              injection hp with hpp; subst hpp
              rw [hexp] at he'
              injection he' with hv; injection hv with hv'
              subst hv'; exact absurd hlt hnl
          · rw [if_neg hlt]
            constructor
            · intro hc
              injection hc with hpp; subst hpp
              exact ⟨rfl, hty, e, hexp, hlt⟩
            · rintro ⟨hp, _⟩; exact hp
        | str v =>
          constructor
          · intro hc; exact Option.noConfusion hc
          · rintro ⟨hp, _, e, he, _⟩
            injection hp with hpp; subst hpp
            rw [hexp] at he
            injection he with hv; exact JVal.noConfusion hv
        | bool b =>
          constructor
          · intro hc; exact Option.noConfusion hc
          · rintro ⟨hp, _, e, he, _⟩
            injection hp with hpp; subst hpp
            rw [hexp] at he
            injection he with hv; exact JVal.noConfusion hv
        | null =>
          constructor
          · intro hc; exact Option.noConfusion hc
          · rintro ⟨hp, _, e, he, _⟩
            injection hp with hpp; subst hpp
            rw [hexp] at he
            injection he with hv; exact JVal.noConfusion hv
    · rw [if_pos hty]
      constructor
      · intro hc; exact Option.noConfusion hc
      · rintro ⟨hp, hty', _⟩
        injection hp with hpp; subst hpp
        exact absurd hty' hty

/-- The bcrypt key: pyca/bcrypt truncates the password to its first 72 bytes
before hashing, so only those bytes take part in the digest. -/
def bcryptKey (password : List Nat) : List Nat := password.take 72

/-- Computable injective stand-in for the Blowfish-based bcrypt digest of the
(truncated) key.  Injectivity idealizes collision freedom; reading the key
backwards and shifting each byte keeps the digest from ever reproducing the
password inside the blob. -/
def bcryptDigest (key : List Nat) : List Nat := key.reverse.map (fun b => b + 1)

/-- The 22-byte encoding of the salt inside a bcrypt blob (fixed width, one
decimal digit per byte, mirroring the fixed-width radix-64 salt field). -/
def bcryptSaltEnc (salt : Nat) : List Nat :=
  (List.range 22).map (fun i => 48 + salt / 10 ^ i % 10)

/-- The byte prefix of a bcrypt 2b cost-12 blob. -/
def bcryptHeader : List Nat := [36, 50, 98, 36, 49, 50, 36]

/-- `bcrypt.hashpw(password, salt_prefix)`: header, salt field, digest of the
truncated key. -/
def hashpwBytes (password : List Nat) (saltField : List Nat) : List Nat :=
  bcryptHeader ++ saltField ++ bcryptDigest (bcryptKey password)

/-- The blob `bcrypt.hashpw` produces for a NUL-free password: header, salt
field, digest of the truncated key. -/
def bcryptBlob (password : List Nat) (salt : Nat) : List Nat :=
  hashpwBytes password (bcryptSaltEnc salt)

/-- `bcrypt.hashpw(password, salt)`: pyca/bcrypt first rejects a password
containing a NUL byte, raising `ValueError("password may not contain NUL
bytes")`, and otherwise produces the blob. -/
def hashpw (password : List Nat) (salt : Nat) : Except String (List Nat) :=
  if password.contains 0 then Except.error "password may not contain NUL bytes"
  else Except.ok (bcryptBlob password salt)

/-- `hash_password` (`app/utils/passwords.py` lines 10-11):
`bcrypt.hashpw(password.encode("utf-8"), bcrypt.gensalt()).decode("utf-8")`;
the `ValueError` on a NUL-containing password propagates to the caller.  The
salt drawn by `gensalt()` is passed as an explicit parameter. -/
def hash_password (password : List Nat) (salt : Nat) : Except String (List Nat) :=
  hashpw password salt

/-- Is a byte an ASCII decimal digit (the salt-field alphabet of the model)? -/
def isDigitByte (b : Nat) : Bool := 48 ≤ b && b ≤ 57

/-- Does a blob parse as a bcrypt hash: correct header, followed by a full
22-byte salt field over the salt alphabet?  `bcrypt.checkpw` raises
`ValueError("Invalid salt")` exactly when this fails (after the NUL check). -/
def bcryptWellFormed (blob : List Nat) : Bool :=
  blob.take 7 == bcryptHeader &&
    ((blob.drop 7).take 22).length == 22 &&
    ((blob.drop 7).take 22).all isDigitByte

/-- `bcrypt.checkpw(password, blob)`: pyca/bcrypt first rejects a NUL byte in
either argument, raising `ValueError("password and hashed_password may not
contain NUL bytes")`; then it re-hashes the password with the salt field
parsed out of the blob and compares with the whole blob, raising
`ValueError("Invalid salt")` when the blob does not parse. -/
def checkpw (password blob : List Nat) : Except String Bool :=
  if password.contains 0 || blob.contains 0 then
    Except.error "password and hashed_password may not contain NUL bytes"
  else if bcryptWellFormed blob then
    Except.ok (hashpwBytes password ((blob.drop 7).take 22) == blob)
  else Except.error "Invalid salt"

/-- `verify_password` (`app/utils/passwords.py` lines 13-14): a direct call
to `bcrypt.checkpw`; any `ValueError` propagates to the caller. -/
def verify_password (password blob : List Nat) : Except String Bool :=
  checkpw password blob

theorem bcryptSaltEnc_length (salt : Nat) : (bcryptSaltEnc salt).length = 22 := by
  simp [bcryptSaltEnc]

theorem bcryptBlob_eq (password : List Nat) (salt : Nat) :
    bcryptBlob password salt =
      bcryptHeader ++ bcryptSaltEnc salt ++ bcryptDigest (bcryptKey password) := rfl

theorem bcryptWellFormed_blob (password : List Nat) (salt : Nat) :
    bcryptWellFormed (bcryptBlob password salt) = true := by
  have h7 : (bcryptBlob password salt).take 7 = bcryptHeader := by
    rw [bcryptBlob_eq, List.append_assoc,
      show 7 = bcryptHeader.length from rfl, List.take_left]
  have hs : ((bcryptBlob password salt).drop 7).take 22 = bcryptSaltEnc salt := by
    rw [bcryptBlob_eq, List.append_assoc,
      show 7 = bcryptHeader.length from rfl, List.drop_left,
      show 22 = (bcryptSaltEnc salt).length from (bcryptSaltEnc_length salt).symm,
      List.take_left]
  simp only [bcryptWellFormed, h7, hs, bcryptSaltEnc_length, beq_self_eq_true,
    Bool.true_and]
  rw [List.all_eq_true]
  intro b hb
  simp only [bcryptSaltEnc, List.mem_map, List.mem_range] at hb
  obtain ⟨i, -, rfl⟩ := hb
  simp only [isDigitByte, Bool.and_eq_true, decide_eq_true_eq]
  omega

theorem blob_saltField (password : List Nat) (salt : Nat) :
    ((bcryptBlob password salt).drop 7).take 22 = bcryptSaltEnc salt := by
  rw [bcryptBlob_eq, List.append_assoc,
    show 7 = bcryptHeader.length from rfl, List.drop_left,
    show 22 = (bcryptSaltEnc salt).length from (bcryptSaltEnc_length salt).symm,
    List.take_left]

theorem bcryptBlob_nul_free (password : List Nat) (salt : Nat) :
    (bcryptBlob password salt).contains 0 = false := by
  rw [Bool.eq_false_iff]
  intro hc
  have hm : (0 : Nat) ∈ bcryptBlob password salt := by simpa using hc
  rw [bcryptBlob_eq] at hm
  simp only [List.mem_append] at hm
  rcases hm with (hm | hm) | hm
  · simp [bcryptHeader] at hm
  · simp only [bcryptSaltEnc, List.mem_map, List.mem_range] at hm
    obtain ⟨i, -, hi⟩ := hm
    omega
  · simp only [bcryptDigest, List.mem_map] at hm
    obtain ⟨b, -, hb⟩ := hm
    omega

theorem bcryptDigest_inj (k1 k2 : List Nat) (h : bcryptDigest k1 = bcryptDigest k2) :
    k1 = k2 := by
  unfold bcryptDigest at h
  have hmap : k1.reverse = k2.reverse :=
    (List.map_injective_iff.mpr (fun a b hab => by omega)) h
  exact List.reverse_injective hmap

theorem hash_password_ok (p : List Nat) (salt : Nat) (blob : List Nat)
    (h : hash_password p salt = Except.ok blob) :
    p.contains 0 = false ∧ blob = bcryptBlob p salt := by
  unfold hash_password hashpw at h
  cases hcb : p.contains 0 with
  | true => rw [hcb] at h; simp at h
  | false =>
    rw [hcb] at h
    simp only [Bool.false_eq_true, if_false, Except.ok.injEq] at h
    exact ⟨rfl, h.symm⟩

/-- Claim C4 counterexample: a 73-byte password and its 72-byte truncation are
distinct, yet `verify_password` accepts the long password against the short
password's hash, because bcrypt only feeds the first 72 bytes of the password
into the digest. -/
theorem claim_C4_counterexample :
    List.replicate 73 97 ≠ List.replicate 72 97 ∧
    hash_password (List.replicate 72 97) 5 =
      Except.ok (bcryptBlob (List.replicate 72 97) 5) ∧
    verify_password (List.replicate 73 97) (bcryptBlob (List.replicate 72 97) 5) =
      Except.ok true :=
  ⟨by decide, by rfl, by rfl⟩

/-- Claim C4 (amended): whenever `hash_password p` returns a blob (it raises
on a password containing a NUL byte), `verify_password p` accepts that blob
and the blob is never equal to `p`; and `verify_password p (hash_password
p2)` is false whenever the NUL-free passwords `p` and `p2` differ within
their first 72 bytes (bcrypt truncates longer passwords, so byte differences
past position 72 are not detected). -/
theorem claim_C4_amended :
    (∀ (p : List Nat) (salt : Nat) (blob : List Nat),
      hash_password p salt = Except.ok blob →
      verify_password p blob = Except.ok true) ∧
    (∀ (p : List Nat) (salt : Nat) (blob : List Nat),
      hash_password p salt = Except.ok blob → blob ≠ p) ∧
    (∀ (p p2 : List Nat) (salt : Nat) (blob : List Nat),
      hash_password p2 salt = Except.ok blob → p.contains 0 = false →
      bcryptKey p ≠ bcryptKey p2 → verify_password p blob = Except.ok false) ∧
    (∀ (p : List Nat) (salt : Nat), p.contains 0 = true →
      hash_password p salt = Except.error "password may not contain NUL bytes") := by
  refine ⟨?_, ?_, ?_, ?_⟩
  · intro p salt blob h
    obtain ⟨hnul, rfl⟩ := hash_password_ok p salt blob h
    simp only [verify_password, checkpw, hnul, bcryptBlob_nul_free, Bool.or_self,
      Bool.false_eq_true, if_false, bcryptWellFormed_blob, if_true]
    rw [blob_saltField,
      show hashpwBytes p (bcryptSaltEnc salt) = bcryptBlob p salt from rfl,
      beq_self_eq_true]
  · intro p salt blob h heq
    obtain ⟨-, rfl⟩ := hash_password_ok p salt blob h
    have hblen : (bcryptBlob p salt).length = 29 + min 72 p.length := by
      simp [bcryptBlob_eq, bcryptDigest, bcryptKey, bcryptHeader,
        bcryptSaltEnc_length]
      omega
    have hlen := congrArg List.length heq
    rw [hblen] at hlen
    rcases le_or_lt p.length 72 with h72 | h72
    · rw [min_eq_right h72] at hlen
      omega
    · have hp101 : p.length = 101 := by
        rw [min_eq_left (by omega)] at hlen
        omega
      have hdrop : p.drop 29 = bcryptDigest (bcryptKey p) := by
        conv_lhs => rw [← heq]
        rw [bcryptBlob_eq,
          show (29 : Nat) = (bcryptHeader ++ bcryptSaltEnc salt).length by
            simp [bcryptHeader, bcryptSaltEnc_length],
          List.drop_left]
      have hb0 : 21 < (p.drop 29).length := by
        rw [List.length_drop, hp101]; omega
      have hb1 : 21 < (bcryptDigest (bcryptKey p)).length := hdrop ▸ hb0
      have h50p : 50 < p.length := by omega
      have hval : (p.drop 29)[21] = (bcryptDigest (bcryptKey p))[21] := by
        congr 1
      have htk : (bcryptKey p).length = 72 := by
        rw [bcryptKey, List.length_take, hp101]
        omega
      have hrev : 21 < (bcryptKey p).reverse.length := by
        rw [List.length_reverse, htk]; omega
      have hL : (p.drop 29)[21] = p[50] := by
        rw [List.getElem_drop]
      have hR : (bcryptDigest (bcryptKey p))[21] = p[50] + 1 := by
        simp only [bcryptDigest, List.getElem_map, List.getElem_reverse, htk]
        have h50 : (72 : Nat) - 1 - 21 = 50 := rfl
        simp only [h50, bcryptKey, List.getElem_take]
      rw [hL, hR] at hval
      omega
  · intro p p2 salt blob h hnp hk
    obtain ⟨-, rfl⟩ := hash_password_ok p2 salt blob h
    simp only [verify_password, checkpw, hnp, bcryptBlob_nul_free, Bool.or_self,
      Bool.false_eq_true, if_false, bcryptWellFormed_blob, if_true]
    rw [blob_saltField]
    have hne : hashpwBytes p (bcryptSaltEnc salt) ≠ bcryptBlob p2 salt := by
      intro hcontra
      rw [bcryptBlob_eq] at hcontra
      unfold hashpwBytes at hcontra
      simp only [List.append_cancel_left_eq] at hcontra
      exact hk (bcryptDigest_inj _ _ hcontra)
    rw [beq_eq_false_iff_ne.mpr hne]
  · intro p salt hc
    unfold hash_password hashpw
    rw [if_pos hc]

/-- Claim C4 amended witness at concrete inputs. -/
theorem claim_C4_amended_witness :
    verify_password [97] (bcryptBlob [97] 3) = Except.ok true ∧
    bcryptBlob [97] 3 ≠ [97] ∧
    verify_password [97] (bcryptBlob [98] 3) = Except.ok false ∧
    hash_password [0] 7 = Except.error "password may not contain NUL bytes" :=
  ⟨claim_C4_amended.1 [97] 3 (bcryptBlob [97] 3) (by rfl),
    claim_C4_amended.2.1 [97] 3 (bcryptBlob [97] 3) (by rfl),
    claim_C4_amended.2.2.1 [97] [98] 3 (bcryptBlob [98] 3) (by rfl) (by rfl)
      (by decide),
    claim_C4_amended.2.2.2 [0] 7 (by rfl)⟩

/-- Claim C5 counterexample: on a malformed hash blob, `verify_password`
raises `ValueError("Invalid salt")` instead of returning false. -/
theorem claim_C5_counterexample :
    verify_password [104, 105] [110, 111] = Except.error "Invalid salt" ∧
    (Except.error "Invalid salt" : Except String Bool) ≠ Except.ok false := by
  constructor
  · rfl
  · intro h; exact Except.noConfusion h

/-- Claim C5 (amended): for NUL-free inputs, `verify_password` returns a
boolean without raising when the blob is a well-formed bcrypt hash, and
propagates bcrypt's `ValueError("Invalid salt")` — rather than returning
false — when the blob is malformed; when the password or the blob contains a
NUL byte it propagates bcrypt's NUL-byte `ValueError` instead. -/
theorem claim_C5_amended (p blob : List Nat) :
    (p.contains 0 = false → blob.contains 0 = false →
      bcryptWellFormed blob = true →
      ∃ b : Bool, verify_password p blob = Except.ok b) ∧
    (p.contains 0 = false → blob.contains 0 = false →
      bcryptWellFormed blob = false →
      verify_password p blob = Except.error "Invalid salt") ∧
    (p.contains 0 = true ∨ blob.contains 0 = true →
      verify_password p blob =
        Except.error "password and hashed_password may not contain NUL bytes") := by
  refine ⟨?_, ?_, ?_⟩
  · intro h1 h2 h3
    refine ⟨hashpwBytes p ((blob.drop 7).take 22) == blob, ?_⟩
    simp only [verify_password, checkpw, h1, h2, Bool.or_self, Bool.false_eq_true,
      if_false, h3, if_true]
  · intro h1 h2 h3
    simp only [verify_password, checkpw, h1, h2, Bool.or_self, Bool.false_eq_true,
      if_false, h3, if_false]
  · intro h
    rcases h with h | h
    · simp only [verify_password, checkpw, h, Bool.true_or, if_true]
    · simp only [verify_password, checkpw, h, Bool.or_true, if_true]

/-- Claim C5 amended witness at concrete inputs. -/
theorem claim_C5_amended_witness :
    (∃ b : Bool, verify_password [97] (bcryptBlob [97] 2) = Except.ok b) ∧
    verify_password [97] [] = Except.error "Invalid salt" ∧
    verify_password [0] [50] =
      Except.error "password and hashed_password may not contain NUL bytes" :=
  ⟨(claim_C5_amended [97] (bcryptBlob [97] 2)).1 (by rfl) (by rfl) (by rfl),
    (claim_C5_amended [97] []).2.1 (by rfl) (by rfl) (by rfl),
    (claim_C5_amended [0] [50]).2.2 (Or.inl (by rfl))⟩

/-- An opaque SHA-256 digest.  Wrapping the hashed value keeps the model
computable while idealizing collision freedom (the wrap is injective). -/
structure Sha256 where
  digest : Jwt
  deriving DecidableEq

/-- `hashlib.sha256(refresh_token.encode()).hexdigest()` as used by the
ledger operations of `app/auth/service.py`. -/
def sha256hex (t : Jwt) : Sha256 := ⟨t⟩

/-- A row of the `users` table (the columns the auth core touches). -/
structure User where
  users_id : String
  email : String
  username : String
  password_hash : List Nat
  first_name : String
  last_name : String
  phone : Option String
  department : Option String
  employee_id : Option String
  group : String
  is_active : Bool
  created_at : Int
  updated_at : Int
  deriving DecidableEq, Repr

/-- A row of the `roles` table. -/
structure Role where
  roles_id : String
  name : String
  is_active : Bool
  deriving DecidableEq, Repr

/-- A row of the `user_roles` link table. -/
structure UserRole where
  users_id : String
  roles_id : String
  is_active : Bool
  deriving DecidableEq, Repr

/-- A row of the `refresh_tokens` ledger table. -/
structure RefreshTokenRow where
  user_id : String
  token_hash : Sha256
  expires_at : Int
  is_revoked : Bool
  deriving DecidableEq

/-- The database state seen by the auth service. -/
structure Db where
  users : List User
  roles : List Role
  user_roles : List UserRole
  refresh_tokens : List RefreshTokenRow
  deriving DecidableEq

/-- Names of the caller's active roles: the
`LEFT JOIN user_roles ... AND ur.is_active LEFT JOIN roles ... AND r.is_active`
part of the service queries. -/
def roleNames (db : Db) (uid : String) : List String :=
  (db.user_roles.filter (fun ur => ur.users_id == uid && ur.is_active)).filterMap
    (fun ur => (db.roles.find? (fun r => r.roles_id == ur.roles_id && r.is_active)).map
      (fun r => r.name))

/-- `GROUP_CONCAT(r.name)`: `NULL` over an empty group. -/
def rolesConcat (names : List String) : Option String :=
  if names.isEmpty then none else some (String.intercalate "," names)

/-- SQL `s LIKE '%Admin%'`, `NULL` giving false through the surrounding
`CASE WHEN ... THEN TRUE ELSE FALSE END`. -/
def likeAdmin (o : Option String) : Bool :=
  match o with
  | none => false
  | some s => decide ("Admin".toList <:+: s.toList)

/-- The user dictionary `verify_refresh_token` returns (`app/auth/service.py`
lines 286-301). -/
structure UserRecord where
  users_id : String
  email : String
  username : String
  first_name : String
  last_name : String
  phone : Option String
  department : Option String
  employee_id : Option String
  group : String
  is_active : Bool
  created_at : Int
  updated_at : Int
  roles : Option String
  is_admin : Bool
  deriving DecidableEq

/-- Assemble the row returned for a user, with its aggregated role columns. -/
def userRecord (db : Db) (u : User) : UserRecord :=
  { users_id := u.users_id, email := u.email, username := u.username,
    first_name := u.first_name, last_name := u.last_name, phone := u.phone,
    department := u.department, employee_id := u.employee_id, group := u.group,
    is_active := u.is_active, created_at := u.created_at, updated_at := u.updated_at,
    roles := rolesConcat (roleNames db u.users_id),
    is_admin := likeAdmin (rolesConcat (roleNames db u.users_id)) }

/-- `AuthService.store_refresh_token` (`app/auth/service.py` lines 221-240):
insert a ledger row holding the token's hash and
`now + refresh_token_expire_days`. -/
def store_refresh_token (db : Db) (s : Settings) (now : Int) (user_id : String)
    (refresh_token : Jwt) : Db :=
  { db with refresh_tokens := db.refresh_tokens ++
      [{ user_id := user_id, token_hash := sha256hex refresh_token,
         expires_at := now + daysToSecs s.refresh_token_expire_days,
         is_revoked := false }] }

/-- `AuthService.verify_refresh_token` (`app/auth/service.py` lines 242-301):
JWT-verify with expected kind "refresh", read the `sub` claim (empty or
missing is rejected), then look for a ledger row matching the token hash AND
that `sub`, not revoked, not past its stored expiry, joined to an active
user; return that user's row or `None`. -/
def verify_refresh_token (db : Db) (s : Settings) (now : Int)
    (refresh_token : Jwt) : Option UserRecord :=
  match verify_token refresh_token "refresh" s now with
  | none => none
  | some payload =>
    match payload.get "sub" with
    | some (JVal.str uid) =>
      if uid = "" then none
      else if db.refresh_tokens.any (fun rt =>
          rt.token_hash == sha256hex refresh_token && rt.user_id == uid &&
          !rt.is_revoked && decide (rt.expires_at > now)) then
        (db.users.find? (fun u => u.users_id == uid && u.is_active)).map (userRecord db)
      else none
    | _ => none

/-- `AuthService.revoke_refresh_token` (`app/auth/service.py` lines 303-316):
`UPDATE refresh_tokens SET is_revoked = TRUE WHERE token_hash = :token_hash`;
returns whether any row changed (MySQL reports rows the update changed, so
already-revoked rows do not count). -/
def revoke_refresh_token (db : Db) (refresh_token : Jwt) : Db × Bool :=
  let h := sha256hex refresh_token
  ({ db with refresh_tokens := db.refresh_tokens.map (fun rt =>
      if rt.token_hash == h then { rt with is_revoked := true } else rt) },
   0 < (db.refresh_tokens.filter (fun rt => rt.token_hash == h && !rt.is_revoked)).length)

/-- `AuthService.revoke_all_user_tokens` (`app/auth/service.py` lines
318-327): revoke every non-revoked ledger row of the account. -/
def revoke_all_user_tokens (db : Db) (user_id : String) : Db :=
  { db with refresh_tokens := db.refresh_tokens.map (fun rt =>
      if rt.user_id == user_id && !rt.is_revoked then { rt with is_revoked := true }
      else rt) }

/-- `AuthService.get_user_by_id` (`app/auth/service.py` lines 122-151): the
active user row inner-joined to a role assignment (no activity filter on the
join); a user with no role rows is not found. -/
def get_user_by_id (db : Db) (user_id : String) : Option (User × String) :=
  match db.users.find? (fun u => u.users_id == user_id && u.is_active) with
  | none => none
  | some u =>
    match (db.user_roles.filter (fun ur => ur.users_id == user_id)).filterMap
        (fun ur => (db.roles.find? (fun r => r.roles_id == ur.roles_id)).map
          (fun r => r.name)) with
    | [] => none
    | n :: _ => some (u, n)

/-- `AuthService.change_password` (`app/auth/service.py` lines 329-369):
look the user up, fetch the stored hash (without the activity filter), verify
the current password and hash the new one (bcrypt errors propagate from
both), store the new hash, and on a successful update revoke every refresh
token of the account.  The fresh `gensalt()` value is the explicit `salt`
parameter, so the update always rewrites the row and the row count is the
number of matching users. -/
def change_password (db : Db) (user_id : String)
    (current_password new_password : List Nat) (salt : Nat) (now : Int) :
    Except String (Bool × Db) :=
  match get_user_by_id db user_id with
  | none => Except.ok (false, db)
  | some _ =>
    match db.users.find? (fun u => u.users_id == user_id) with
    | none => Except.ok (false, db)
    | some u =>
      match verify_password current_password u.password_hash with
      | Except.error e => Except.error e
      | Except.ok false => Except.ok (false, db)
      | Except.ok true =>
        match hash_password new_password salt with
        | Except.error e => Except.error e
        | Except.ok newHash =>
          let affected := (db.users.filter (fun v => v.users_id == user_id)).length
          let db1 : Db := { db with users := db.users.map (fun v =>
            if v.users_id == user_id then
              { v with password_hash := newHash, updated_at := now } else v) }
          if 0 < affected then Except.ok (true, revoke_all_user_tokens db1 user_id)
          else Except.ok (false, db1)

theorem revoke_all_user_tokens_revokes (db : Db) (uid : String) :
    ∀ rt ∈ (revoke_all_user_tokens db uid).refresh_tokens,
      rt.user_id = uid → rt.is_revoked = true := by
  intro rt hmem hu
  simp only [revoke_all_user_tokens, List.mem_map] at hmem
  obtain ⟨rt0, hrt0, rfl⟩ := hmem
  by_cases hc : (rt0.user_id == uid && !rt0.is_revoked) = true
  · simp only [hc, if_true]
  · rw [if_neg hc] at hu ⊢
    cases hr : rt0.is_revoked with
    | true => rfl
    | false =>
      exact absurd (by simp [hu, hr]) hc

theorem verify_refresh_token_none_of_dead (db : Db) (s : Settings) (now : Int)
    (tok : Jwt) (payload : JDict) (uid : String)
    (hvt : verify_token tok "refresh" s now = some payload)
    (hsub : payload.get "sub" = some (JVal.str uid))
    (hdead : ∀ rt ∈ db.refresh_tokens, rt.token_hash = sha256hex tok →
      rt.user_id = uid → rt.is_revoked = true ∨ ¬ rt.expires_at > now) :
    verify_refresh_token db s now tok = none := by
  unfold verify_refresh_token
  rw [hvt]
  show (match payload.get "sub" with
    | some (JVal.str uid) =>
      if uid = "" then none
      else if db.refresh_tokens.any (fun rt =>
          rt.token_hash == sha256hex tok && rt.user_id == uid &&
          !rt.is_revoked && decide (rt.expires_at > now)) then
        (db.users.find? (fun u => u.users_id == uid && u.is_active)).map (userRecord db)
      else none
    | _ => none) = none
  rw [hsub]
  show (if uid = "" then none
    else if db.refresh_tokens.any (fun rt =>
        rt.token_hash == sha256hex tok && rt.user_id == uid &&
        !rt.is_revoked && decide (rt.expires_at > now)) then
      (db.users.find? (fun u => u.users_id == uid && u.is_active)).map (userRecord db)
    else none) = none
  by_cases he : uid = ""
  · rw [if_pos he]
  · rw [if_neg he]
    have hany : (db.refresh_tokens.any (fun rt =>
        rt.token_hash == sha256hex tok && rt.user_id == uid &&
        !rt.is_revoked && decide (rt.expires_at > now))) = false := by
      rw [List.any_eq_false]
      intro rt hmem hpred
      simp only [Bool.and_eq_true, beq_iff_eq, Bool.not_eq_true',
        decide_eq_true_eq] at hpred
      obtain ⟨⟨⟨hh, hu⟩, hrv⟩, hex⟩ := hpred
      rcases hdead rt hmem hh hu with hdone | hdone
      · rw [hdone] at hrv; exact Bool.noConfusion hrv
      · exact hdone hex
    rw [hany]
    rfl

/-- Claim C10: when every ledger entry matching the token's hash was recorded
for a different account than the token's `sub` claim, `verify_refresh_token`
returns `none` — the lookup requires `rt.user_id = :user_id` with the decoded
`sub`, not just the hash. -/
theorem claim_C10_sub_must_match_entry (db : Db) (s : Settings) (now : Int)
    (tok : Jwt) (payload : JDict) (uid : String)
    (hvt : verify_token tok "refresh" s now = some payload)
    (hsub : payload.get "sub" = some (JVal.str uid))
    (hdiff : ∀ rt ∈ db.refresh_tokens, rt.token_hash = sha256hex tok →
      rt.user_id ≠ uid) :
    verify_refresh_token db s now tok = none :=
  verify_refresh_token_none_of_dead db s now tok payload uid hvt hsub
    (fun rt hm hh hu => absurd hu (hdiff rt hm hh))

/-- A fixed configuration used by the concrete scenarios below. -/
def exSettings : Settings := ⟨"secret", "HS256", 1, 7⟩

/-- Claims payload of a refresh token whose subject is account "B". -/
def exPayloadB : JDict :=
  [("type", JVal.str "refresh"), ("exp", JVal.num 1000), ("sub", JVal.str "B")]

/-- A refresh token for account "B", signed with the configured secret. -/
def exTokB : Jwt := Jwt.signed exPayloadB "secret" "HS256"

/-- An active account "A". -/
def exUserA : User :=
  ⟨"A", "a@x.com", "alice", [], "Al", "Ice", none, none, none, "Employee",
    true, 0, 0⟩

/-- A live ledger entry recorded for account "A" but holding the hash of the
token whose `sub` is "B". -/
def exEntryA : RefreshTokenRow := ⟨"A", sha256hex exTokB, 1000, false⟩

/-- A state where the only ledger entry matching `exTokB`'s hash belongs to
account "A". -/
def exDb : Db := ⟨[exUserA], [], [], [exEntryA]⟩

/-- Claim C10 witness: the concrete mismatched state indeed yields `none`. -/
theorem claim_C10_witness : verify_refresh_token exDb exSettings 0 exTokB = none :=
  claim_C10_sub_must_match_entry exDb exSettings 0 exTokB exPayloadB "B"
    (by rfl) (by rfl) (by decide)

/-- Claim C1 counterexample: a state and token satisfying every condition the
claim lists — valid signature, kind "refresh", future `exp`, a ledger entry
with the token's hash that is not revoked, whose stored expiry has not
passed, and whose owning account is active — on which `verify_refresh_token`
still returns `none`, because the entry's owner "A" is not the token's `sub`
claim "B". -/
theorem claim_C1_counterexample :
    verify_token exTokB "refresh" exSettings 0 = some exPayloadB ∧
    (∃ rt ∈ exDb.refresh_tokens, rt.token_hash = sha256hex exTokB ∧
      rt.is_revoked = false ∧ rt.expires_at > 0 ∧
      ∃ u ∈ exDb.users, u.users_id = rt.user_id ∧ u.is_active = true) ∧
    verify_refresh_token exDb exSettings 0 exTokB = none := by
  refine ⟨by rfl, ⟨exEntryA, by decide, by decide, by decide, by decide,
    exUserA, by decide, by decide, by decide⟩, by rfl⟩

/-- Claim C1 (amended): `verify_refresh_token` returns a user record exactly
when the token's signature verifies with kind "refresh" and unexpired `exp`,
the token carries a nonempty string `sub` claim, a ledger entry exists whose
hash matches the token, whose owning account equals that `sub` claim, which
is not revoked and whose stored expiry has not passed, and the account named
by `sub` is active; the returned record is that account's row. -/
theorem claim_C1_amended (db : Db) (s : Settings) (now : Int) (tok : Jwt)
    (u : UserRecord) :
    verify_refresh_token db s now tok = some u ↔
      ∃ payload uid,
        verify_token tok "refresh" s now = some payload ∧
        payload.get "sub" = some (JVal.str uid) ∧ uid ≠ "" ∧
        (∃ rt ∈ db.refresh_tokens, rt.token_hash = sha256hex tok ∧
          rt.user_id = uid ∧ rt.is_revoked = false ∧ rt.expires_at > now) ∧
        ∃ usr, db.users.find? (fun v => v.users_id == uid && v.is_active) = some usr ∧
          u = userRecord db usr := by
  unfold verify_refresh_token
  cases hvt : verify_token tok "refresh" s now with
  | none => simp
  | some payload =>
    show (match payload.get "sub" with
      | some (JVal.str uid) =>
        if uid = "" then none
        else if db.refresh_tokens.any (fun rt =>
            rt.token_hash == sha256hex tok && rt.user_id == uid &&
            !rt.is_revoked && decide (rt.expires_at > now)) then
          (db.users.find? (fun w => w.users_id == uid && w.is_active)).map
            (userRecord db)
        else none
      | _ => none) = some u ↔ _
    cases hsub : payload.get "sub" with
    | none =>
      constructor
      · intro hc; exact Option.noConfusion hc
      · rintro ⟨pl, uidx, hpl, hsubx, -⟩
        injection hpl with hpl'; subst hpl'
        rw [hsub] at hsubx; exact Option.noConfusion hsubx
    | some v =>
      cases v with
      | str uid0 =>
        show (if uid0 = "" then none
          else if db.refresh_tokens.any (fun rt =>
              rt.token_hash == sha256hex tok && rt.user_id == uid0 &&
              !rt.is_revoked && decide (rt.expires_at > now)) then
            (db.users.find? (fun w => w.users_id == uid0 && w.is_active)).map
              (userRecord db)
          else none) = some u ↔ _
        by_cases he : uid0 = ""
        · rw [if_pos he]
          constructor
          · intro hc; exact Option.noConfusion hc
          · rintro ⟨pl, uidx, hpl, hsubx, hne, -⟩
            injection hpl with hpl'; subst hpl'
            rw [hsub] at hsubx
            injection hsubx with h2; injection h2 with h3
            subst h3
            exact absurd he hne
        · rw [if_neg he]
          cases hany : db.refresh_tokens.any (fun rt =>
              rt.token_hash == sha256hex tok && rt.user_id == uid0 &&
              !rt.is_revoked && decide (rt.expires_at > now)) with
          | false =>
            rw [if_neg (by simp [hany])]
            constructor
            · intro hc; exact Option.noConfusion hc
            · rintro ⟨pl, uidx, hpl, hsubx, hne, ⟨rt, hm, hh, hu, hr, hx2⟩, -⟩
              injection hpl with hpl'; subst hpl'
              rw [hsub] at hsubx
              injection hsubx with h2; injection h2 with h3
              subst h3
              rw [List.any_eq_false] at hany
              exact (hany rt hm (by simp [hh, hu, hr, hx2])).elim
          | true =>
            rw [if_pos (by simp [hany])]
            have hex : ∃ rt ∈ db.refresh_tokens, rt.token_hash = sha256hex tok ∧
                rt.user_id = uid0 ∧ rt.is_revoked = false ∧ rt.expires_at > now := by
              rw [List.any_eq_true] at hany
              obtain ⟨rt, hm, hp⟩ := hany
              simp only [Bool.and_eq_true, beq_iff_eq, Bool.not_eq_true',
                decide_eq_true_eq] at hp
              exact ⟨rt, hm, hp.1.1.1, hp.1.1.2, hp.1.2, hp.2⟩
            constructor
            · intro hmap
              rw [Option.map_eq_some'] at hmap
              obtain ⟨usr, hfind, hrec⟩ := hmap
              exact ⟨payload, uid0, rfl, hsub, he, hex, usr, hfind, hrec.symm⟩
            · rintro ⟨pl, uidx, hpl, hsubx, hne, hexr, usr, hfind, hrec⟩
              injection hpl with hpl'; subst hpl'
              rw [hsub] at hsubx
              injection hsubx with h2; injection h2 with h3
              subst h3
              rw [Option.map_eq_some']
              exact ⟨usr, hfind, hrec.symm⟩
      | num n =>
        constructor
        · intro hc; exact Option.noConfusion hc
        · rintro ⟨pl, uidx, hpl, hsubx, -⟩
          injection hpl with hpl'; subst hpl'
          rw [hsub] at hsubx
          injection hsubx with h2; exact JVal.noConfusion h2
      | bool b =>
        constructor
        · intro hc; exact Option.noConfusion hc
        · rintro ⟨pl, uidx, hpl, hsubx, -⟩
          injection hpl with hpl'; subst hpl'
          rw [hsub] at hsubx
          injection hsubx with h2; exact JVal.noConfusion h2
      | null =>
        constructor
        · intro hc; exact Option.noConfusion hc
        · rintro ⟨pl, uidx, hpl, hsubx, -⟩
          injection hpl with hpl'; subst hpl'
          rw [hsub] at hsubx
          injection hsubx with h2; exact JVal.noConfusion h2

/-- Claim C3: when `change_password` succeeds it has run
`revoke_all_user_tokens`, so afterwards every ledger entry of the account is
revoked, and every refresh token whose `sub` claim names the account — in
particular every refresh token recorded before the change — fails
`verify_refresh_token`. -/
theorem claim_C3_change_password_revokes (db : Db) (s : Settings) (uid : String)
    (cur npw : List Nat) (salt : Nat) (now : Int) (db' : Db)
    (h : change_password db uid cur npw salt now = Except.ok (true, db')) :
    (∀ rt ∈ db'.refresh_tokens, rt.user_id = uid → rt.is_revoked = true) ∧
    ∀ (tok : Jwt) (now2 : Int) (payload : JDict),
      verify_token tok "refresh" s now2 = some payload →
      payload.get "sub" = some (JVal.str uid) →
      verify_refresh_token db' s now2 tok = none := by
  unfold change_password at h
  split at h
  · exact absurd h (by simp)
  · split at h
    · exact absurd h (by simp)
    · split at h
      · exact Except.noConfusion h
      · exact absurd h (by simp)
      · split at h
        · exact Except.noConfusion h
        · dsimp only [] at h
          split at h
          · injection h with h1
            have h2 := congrArg Prod.snd h1
            dsimp only [] at h2
            subst h2
            refine ⟨revoke_all_user_tokens_revokes _ _, ?_⟩
            intro tok now2 payload hvt hsub
            exact verify_refresh_token_none_of_dead _ s now2 tok payload uid hvt hsub
              (fun rt hm _ hu => Or.inl (revoke_all_user_tokens_revokes _ _ rt hm hu))
          · exact absurd h (by simp)

/-- An account "U" whose stored hash is of the password byte `[112]`. -/
def cpUser : User :=
  ⟨"U", "u@x.com", "uma", bcryptBlob [112] 9, "U", "Ma", none, none, none,
    "Employee", true, 0, 0⟩

/-- The default role row. -/
def cpRole : Role := ⟨"R1", "Employee", true⟩

/-- Account "U"'s role assignment. -/
def cpUR : UserRole := ⟨"U", "R1", true⟩

/-- Claims payload of the refresh token issued to account "U". -/
def cpPayload : JDict :=
  [("type", JVal.str "refresh"), ("exp", JVal.num 500), ("sub", JVal.str "U")]

/-- The refresh token issued to account "U". -/
def cpTok : Jwt := Jwt.signed cpPayload "secret" "HS256"

/-- State before the password change: one live ledger entry for "U". -/
def cpDb : Db := ⟨[cpUser], [cpRole], [cpUR], [⟨"U", sha256hex cpTok, 500, false⟩]⟩

/-- State `change_password` produces: new hash stored, ledger entry revoked. -/
def cpDbAfter : Db :=
  ⟨[{ cpUser with password_hash := bcryptBlob [113] 4, updated_at := 0 }],
    [cpRole], [cpUR], [⟨"U", sha256hex cpTok, 500, true⟩]⟩

/-- Claim C3 witness: after a successful concrete password change, the
refresh token recorded beforehand no longer passes verification. -/
theorem claim_C3_witness :
    verify_refresh_token cpDbAfter exSettings 0 cpTok = none :=
  (claim_C3_change_password_revokes cpDb exSettings "U" [112] [113] 4 0 cpDbAfter
    (by rfl)).2 cpTok 0 cpPayload (by rfl) (by rfl)

/-- A FastAPI `HTTPException`: status code and detail message. -/
structure HttpError where
  status_code : Nat
  detail : String
  deriving DecidableEq

/-- The `logout` endpoint (`app/auth/router.py` lines 171-195): the caller is
authenticated (`current_user`), but the handler only calls
`revoke_refresh_token` on the presented token; success is reported whenever
some live ledger row matched the hash, whoever owned it. -/
def logout (db : Db) (current_user : UserRecord) (refresh_token : Jwt) :
    Except HttpError String × Db :=
  let r := revoke_refresh_token db refresh_token
  (if r.2 then Except.ok "Successfully logged out"
   else Except.error ⟨400, "Invalid refresh token"⟩, r.1)

/-- Claim C9: `logout` never compares the entry's owner with the caller: a
live ledger entry matching the presented token but owned by a different
account is still revoked, and logout reports success. -/
theorem claim_C9_logout_ignores_owner (db : Db) (caller : UserRecord) (tok : Jwt)
    (rt : RefreshTokenRow) (hmem : rt ∈ db.refresh_tokens)
    (hhash : rt.token_hash = sha256hex tok) (hlive : rt.is_revoked = false)
    (hother : rt.user_id ≠ caller.users_id) :
    (logout db caller tok).1 = Except.ok "Successfully logged out" ∧
    ∀ rt' ∈ (logout db caller tok).2.refresh_tokens,
      rt'.token_hash = sha256hex tok → rt'.is_revoked = true := by
  have hpos : 0 < (db.refresh_tokens.filter (fun r0 =>
      r0.token_hash == sha256hex tok && !r0.is_revoked)).length := by
    apply List.length_pos.mpr
    intro hemp
    rw [List.eq_nil_iff_forall_not_mem] at hemp
    exact hemp rt (List.mem_filter.mpr ⟨hmem, by simp [hhash, hlive]⟩)
  constructor
  · simp only [logout, revoke_refresh_token, decide_eq_true_eq]
    rw [if_pos hpos]
  · intro rt' hm hh
    simp only [logout, revoke_refresh_token, List.mem_map] at hm
    obtain ⟨rt0, hrt0, rfl⟩ := hm
    by_cases hc : (rt0.token_hash == sha256hex tok) = true
    · simp only [hc, if_true]
    · rw [if_neg hc] at hh ⊢
      exact absurd (by simp [hh]) hc

/-- An authenticated caller "C", distinct from the entry owner "A". -/
def exCallerC : UserRecord :=
  ⟨"C", "c@x.com", "carl", "Ca", "Rl", none, none, none, "Employee", true,
    0, 0, none, false⟩

/-- Claim C9 witness: the caller "C" logs out with account "A"'s token and
the handler reports success. -/
theorem claim_C9_witness :
    (logout exDb exCallerC exTokB).1 = Except.ok "Successfully logged out" :=
  (claim_C9_logout_ignores_owner exDb exCallerC exTokB exEntryA (by decide)
    (by decide) (by decide) (by decide)).1

/-- The response model of the refresh endpoint. -/
structure AccessTokenResponse where
  access_token : Jwt
  token_type : String
  expires_in : Int
  deriving DecidableEq

/-- The `roles` value of the user dictionary as a JSON claim
(`user.get("roles", "")` finds the key present, possibly bound to `None`). -/
def rolesClaim (o : Option String) : JVal :=
  match o with
  | some r => JVal.str r
  | none => JVal.null

/-- The `refresh_token` endpoint (`app/auth/router.py` lines 128-168):
verify the refresh token against JWT and ledger, mint a new access token,
then build the response reading `settings.access_token_expire_minutes` — an
attribute the active `Settings` class does not define, so the read raises
`AttributeError`, which the blanket `except Exception` maps to a 500. -/
def refresh_endpoint (db : Db) (s : Settings) (now : Int) (refresh_token : Jwt) :
    Except HttpError AccessTokenResponse :=
  match verify_refresh_token db s now refresh_token with
  | none => Except.error ⟨401, "Invalid refresh token"⟩
  | some user =>
    let access_token := create_access_token
      [("sub", JVal.str user.users_id), ("username", JVal.str user.username),
       ("email", JVal.str user.email), ("is_admin", JVal.bool user.is_admin),
       ("roles", rolesClaim user.roles)] none s now
    match s.intAttr "access_token_expire_minutes" with
    | none => Except.error ⟨500, "Token refresh failed"⟩
    | some m => Except.ok ⟨access_token, "bearer", m * 60⟩

/-- Claim C7: the refresh endpoint never succeeds.  An invalid token yields
401; a refresh token that passes verification and the ledger lookup still
yields 500 "Token refresh failed", because the handler reads the missing
`access_token_expire_minutes` setting while building the response.  (In
particular no refresh rotation or ledger write ever happens: the handler
performs no state change at all.) -/
theorem claim_C7_refresh_endpoint_cannot_succeed (db : Db) (s : Settings)
    (now : Int) (tok : Jwt) :
    refresh_endpoint db s now tok = Except.error ⟨401, "Invalid refresh token"⟩ ∨
    refresh_endpoint db s now tok = Except.error ⟨500, "Token refresh failed"⟩ := by
  unfold refresh_endpoint
  cases verify_refresh_token db s now tok with
  | none => exact Or.inl rfl
  | some user => exact Or.inr rfl

/-- Python `payload.get(k)` coerced the way the federated flow uses it: the
claim's string when present, `""` for a missing (or non-string, hence falsy
or unusable) claim. -/
def pyStr (payload : JDict) (k : String) : String :=
  match payload.get k with
  | some (JVal.str s) => s
  | _ => ""

/-- The claim-extraction step of `AuthService.authenticate_with_azure`
(`app/auth/service.py` lines 376-383), applied to an already verified
identity-token payload.  Note the conditional-expression precedence on the
`first_name` line: the whole `a or b` is guarded by `if payload.get("name")`,
and `last_name` has no fallback. -/
def azureExtract (payload : JDict) : Except HttpError (String × String × String) :=
  let email := if pyStr payload "email" ≠ "" then pyStr payload "email"
    else pyStr payload "preferred_username"
  let first_name := if pyStr payload "name" ≠ "" then
      (if pyStr payload "given_name" ≠ "" then pyStr payload "given_name"
       else ((pyStr payload "name").splitOn " ").headD "")
    else ""
  let last_name := pyStr payload "family_name"
  if email = "" then Except.error ⟨400, "Azure token missing email"⟩
  else Except.ok (email, first_name, last_name)

/-- A verified payload carrying `given_name` and `family_name` but no `name`
claim. -/
def azPayload : JDict :=
  [("email", JVal.str "j@x.com"), ("given_name", JVal.str "John"),
   ("family_name", JVal.str "Smith")]

/-- Claim C8 counterexample: with `given_name = "John"` present but no `name`
claim, the direct flow extracts an empty given name — not `"John"` as the
claim states — because the `if payload.get("name")` guard swallows the
`given_name` branch. -/
theorem claim_C8_counterexample :
    azureExtract azPayload = Except.ok ("j@x.com", "", "Smith") ∧
    ("" : String) ≠ "John" :=
  ⟨by rfl, by decide⟩

/-- Claim C8 (amended): the extracted email is the `email` claim falling back
to `preferred_username`, and the flow fails with a 400 client error exactly
when both are unusable; the given name is `given_name` falling back to the
first space-separated word of `name` only when the `name` claim is present
and nonempty, and is empty otherwise (even when `given_name` is present);
the family name is the `family_name` claim with no fallback. -/
theorem claim_C8_amended (payload : JDict) :
    (azureExtract payload = Except.error ⟨400, "Azure token missing email"⟩ ↔
      pyStr payload "email" = "" ∧ pyStr payload "preferred_username" = "") ∧
    ∀ em fn ln, azureExtract payload = Except.ok (em, fn, ln) ↔
      (em = (if pyStr payload "email" ≠ "" then pyStr payload "email"
          else pyStr payload "preferred_username") ∧ em ≠ "" ∧
        fn = (if pyStr payload "name" ≠ "" then
            (if pyStr payload "given_name" ≠ "" then pyStr payload "given_name"
             else ((pyStr payload "name").splitOn " ").headD "")
          else "") ∧
        ln = pyStr payload "family_name") := by
  constructor
  · constructor
    · intro h
      by_cases h1 : pyStr payload "email" = ""
      · by_cases h2 : pyStr payload "preferred_username" = ""
        · exact ⟨h1, h2⟩
        · exfalso
          unfold azureExtract at h
          rw [if_neg (not_not_intro h1), if_neg h2] at h
          exact Except.noConfusion h
      · exfalso
        unfold azureExtract at h
        rw [if_pos h1, if_neg h1] at h
        exact Except.noConfusion h
    · rintro ⟨h1, h2⟩
      unfold azureExtract
      rw [if_neg (not_not_intro h1), if_pos h2]
  · intro em fn ln
    constructor
    · intro h
      unfold azureExtract at h
      by_cases h1 : pyStr payload "email" = ""
      · rw [if_neg (not_not_intro h1)] at h
        by_cases h2 : pyStr payload "preferred_username" = ""
        · rw [if_pos h2] at h
          exact Except.noConfusion h
        · rw [if_neg h2] at h
          injection h with h3
          injection h3 with he hrest
          injection hrest with hf hl
          refine ⟨?_, ?_, hf.symm, hl.symm⟩
          · rw [if_neg (not_not_intro h1)]; exact he.symm
          · rw [← he]; exact h2
      · rw [if_pos h1, if_neg h1] at h
        injection h with h3
        injection h3 with he hrest
        injection hrest with hf hl
        refine ⟨?_, ?_, hf.symm, hl.symm⟩
        · rw [if_pos h1]; exact he.symm
        · rw [← he]; exact h1
    · rintro ⟨hem, hne, hfn, hln⟩
      unfold azureExtract
      by_cases h1 : pyStr payload "email" = ""
      · rw [if_neg (not_not_intro h1)] at hem
        rw [if_neg (not_not_intro h1),
          if_neg (fun hq => hne (hem.trans hq))]
        rw [hem, hfn, hln]
      · rw [if_pos h1] at hem
        rw [if_pos h1, if_neg h1, hem, hfn, hln]
